import Mathlib

/-
Verification of the billing calculation engine of the invoice application.

The numeric values of the program are embedded as rationals; the host
rounding primitive Math.round (round half towards positive infinity) is
embedded as jsRound.  Non-finite host numbers, which the import
normalizer can produce through division, are embedded explicitly by the
JSNum type further below.
-/

namespace Invoice

/-- Embedding of Math.round: round to nearest, half towards positive
infinity, i.e. the floor of x + 1/2. -/
def jsRound (q : ℚ) : ℤ := ⌊q + 1/2⌋

/-- Math.round with the result read back as a rational. -/
def jsRoundQ (q : ℚ) : ℚ := (jsRound q : ℚ)

theorem jsRound_intCast (n : ℤ) : jsRound (n : ℚ) = n := by
  unfold jsRound
  rw [add_comm, Int.floor_add_int]
  have h : ⌊(1 : ℚ) / 2⌋ = 0 := by
    rw [Int.floor_eq_iff]
    norm_num
  omega

theorem jsRound_sub_le (q : ℚ) : (jsRound q : ℚ) ≤ q + 1/2 :=
  Int.floor_le _

theorem jsRound_lt_add (q : ℚ) : q - 1/2 < (jsRound q : ℚ) := by
  have h := Int.lt_floor_add_one (q + 1/2)
  unfold jsRound
  linarith

theorem jsRound_half_dist (q : ℚ) : |q - jsRoundQ q| ≤ 1/2 := by
  unfold jsRoundQ
  have h1 := jsRound_sub_le q
  have h2 := jsRound_lt_add q
  rw [abs_sub_le_iff]
  constructor <;> linarith

/-- Math.round returns a nearest integer: no integer is strictly closer. -/
theorem jsRound_nearest (q : ℚ) (n : ℤ) : |q - jsRoundQ q| ≤ |q - (n : ℚ)| := by
  have h1 := jsRound_sub_le q
  have h2 := jsRound_lt_add q
  have h3 := jsRound_half_dist q
  rcases lt_trichotomy n (jsRound q) with hn | hn | hn
  · have hc : (n : ℚ) ≤ (jsRound q : ℚ) - 1 := by exact_mod_cast Int.le_sub_one_of_lt hn
    have h4 : (1 : ℚ)/2 ≤ q - n := by linarith
    calc |q - jsRoundQ q| ≤ 1/2 := h3
      _ ≤ q - n := h4
      _ ≤ |q - (n : ℚ)| := le_abs_self _
  · simp [jsRoundQ, hn]
  · have hc : (jsRound q : ℚ) + 1 ≤ (n : ℚ) := by exact_mod_cast Int.add_one_le_of_lt hn
    have h4 : (1 : ℚ)/2 ≤ (n : ℚ) - q := by linarith
    calc |q - jsRoundQ q| ≤ 1/2 := h3
      _ ≤ (n : ℚ) - q := h4
      _ ≤ |q - (n : ℚ)| := by rw [abs_sub_comm]; exact le_abs_self _

/-! ## Data model (types.ts) -/

inductive LineItemType where
  | service
  | expense
deriving DecidableEq, Repr

/-- A line item; the id field of the source is an opaque identifier and is
omitted because no verified routine reads it. -/
structure LineItem where
  type : LineItemType
  date : String
  description : String
  hours : ℚ
  rate : ℚ
  amount : ℚ
deriving DecidableEq, Repr

structure Totals where
  gross : ℚ
  gst : ℚ
  tax : ℚ
  clientToPay : ℚ
  net : ℚ
deriving DecidableEq, Repr

/-! ## Totals aggregator (calculations.ts, calculateTotals) -/

/-- Embedding of calculateTotals: reduce over amounts, filter the service
items, GST and withholding tax are rounded percentages of the service
subtotal only. -/
def calculateTotals (items : List LineItem) : Totals :=
  let gross := items.foldl (fun sum item => sum + item.amount) 0
  let serviceItems := items.filter (fun i => i.type = LineItemType.service)
  let serviceGross := serviceItems.foldl (fun sum item => sum + item.amount) 0
  let gst := jsRoundQ (serviceGross * (15/100))
  let tax := jsRoundQ (serviceGross * (20/100))
  let clientToPay := gross + gst
  let net := gross - tax
  { gross := gross, gst := gst, tax := tax, clientToPay := clientToPay, net := net }

/-- Service-only subtotal, written as the specification states it: the sum
of the amounts of the service-category items. -/
def serviceSubtotal (items : List LineItem) : ℚ :=
  ((items.filter (fun i => i.type = LineItemType.service)).map (fun i => i.amount)).sum

/-- Gross, written as the specification states it: the sum of the amounts
of all items. -/
def grossSpec (items : List LineItem) : ℚ :=
  (items.map (fun i => i.amount)).sum

lemma foldl_add_amount (items : List LineItem) (init : ℚ) :
    items.foldl (fun sum item => sum + item.amount) init
      = init + (items.map (fun i => i.amount)).sum := by
  induction items generalizing init with
  | nil => simp
  | cons hd tl ih => simp [List.foldl_cons, ih]; ring

/-- Concrete service item of the specification example. -/
def exService100 : LineItem :=
  { type := LineItemType.service, date := "", description := "", hours := 0, rate := 0, amount := 100 }

/-- Concrete expense item of the specification example. -/
def exExpense50 : LineItem :=
  { type := LineItemType.expense, date := "", description := "", hours := 0, rate := 0, amount := 50 }

/-- C1: for every list of line items the totals aggregator returns
gross = sum of all amounts, gst = round(serviceSubtotal * 0.15),
withholdingTax = round(serviceSubtotal * 0.20) computed from the
service-only subtotal, payable = gross + gst and netRetained =
gross - withholdingTax; the empty list yields all five figures 0, and
the [service 100, expense 50] example yields serviceSubtotal 100,
gst 15, tax 20, gross 150, payable 165, netRetained 130. -/
theorem calculateTotals_correct :
    (∀ items : List LineItem,
      calculateTotals items =
        { gross := grossSpec items
          gst := jsRoundQ (serviceSubtotal items * (15/100))
          tax := jsRoundQ (serviceSubtotal items * (20/100))
          clientToPay := grossSpec items + jsRoundQ (serviceSubtotal items * (15/100))
          net := grossSpec items - jsRoundQ (serviceSubtotal items * (20/100)) })
    ∧ calculateTotals [] = { gross := 0, gst := 0, tax := 0, clientToPay := 0, net := 0 }
    ∧ (serviceSubtotal [exService100, exExpense50] = 100
        ∧ calculateTotals [exService100, exExpense50] =
            { gross := 150, gst := 15, tax := 20, clientToPay := 165, net := 130 }) := by
  refine ⟨fun items => ?_, ?_, ?_, ?_⟩
  · simp [calculateTotals, foldl_add_amount, serviceSubtotal, grossSpec]
  · simp [calculateTotals, jsRoundQ, jsRound]
    norm_num [Int.floor_eq_iff]
  · simp [serviceSubtotal, exService100, exExpense50, List.filter_cons]
  · simp [calculateTotals, exService100, exExpense50, jsRoundQ, jsRound, serviceSubtotal]
    norm_num [Int.floor_eq_iff]

/-! ## Reverse metrics resolver (calculations.ts, calculateMetricsFromAmount) -/

structure Metrics where
  hours : ℤ
  rate : ℚ
  amount : ℚ
deriving DecidableEq, Repr

/-- Loop state of the resolver; diff none stands for the Infinity used to
seed the best candidate. -/
structure BestOption where
  hours : ℤ
  rate : ℚ
  amount : ℚ
  diff : Option ℚ
deriving DecidableEq, Repr

/-- Comparison of a fresh finite difference against the stored one; the
seed value Infinity compares greater than everything. -/
def diffLt (d : ℚ) : Option ℚ → Bool
  | none => true
  | some b => decide (d < b)

/-- The fixed enumeration of allowed hourly rates. -/
def rateOptions : List ℚ := [60, 65]

/-- One iteration of the resolver loop: round the implied hours, clamp to
a minimum of 1, snap the amount and keep the candidate only on a strictly
smaller difference. -/
def stepOption (targetAmount : ℚ) (best : BestOption) (rate : ℚ) : BestOption :=
  let hours : ℤ := max 1 (jsRound (targetAmount / rate))
  let calculatedAmount : ℚ := (hours : ℚ) * rate
  let d : ℚ := |targetAmount - calculatedAmount|
  if diffLt d best.diff then
    { hours := hours, rate := rate, amount := calculatedAmount, diff := some d }
  else best

/-- Embedding of calculateMetricsFromAmount: zero target short-circuits to
the default, otherwise fold the loop over the allowed rates. -/
def calculateMetricsFromAmount (targetAmount : ℚ) : Metrics :=
  if targetAmount = 0 then { hours := 0, rate := 65, amount := 0 }
  else
    let best := rateOptions.foldl (stepOption targetAmount) { hours := 0, rate := 65, amount := 0, diff := none }
    { hours := best.hours, rate := best.rate, amount := best.amount }

/-- Candidate for one rate, written as the specification states it:
hours = round(target / rate) clamped to a minimum of 1, amount snapped to
hours * rate. -/
def candidateFor (targetAmount rate : ℚ) : Metrics :=
  let hours : ℤ := max 1 (jsRound (targetAmount / rate))
  { hours := hours, rate := rate, amount := (hours : ℚ) * rate }

/-- Absolute difference between the target and the snapped amount of the
candidate for one rate. -/
def candidateDiff (targetAmount rate : ℚ) : ℚ :=
  |targetAmount - (candidateFor targetAmount rate).amount|

/-- The resolver as the specification words it: enumerate 60 then 65,
return the candidate with the smallest difference, an exact tie going to
the earlier-enumerated rate 60 because the update is a strict less-than. -/
def resolveSpec (targetAmount : ℚ) : Metrics :=
  if targetAmount = 0 then { hours := 0, rate := 65, amount := 0 }
  else if candidateDiff targetAmount 65 < candidateDiff targetAmount 60 then
    candidateFor targetAmount 65
  else candidateFor targetAmount 60

lemma resolve_eq_spec (t : ℚ) : calculateMetricsFromAmount t = resolveSpec t := by
  unfold calculateMetricsFromAmount resolveSpec
  by_cases h : t = 0
  · simp [h]
  · simp only [h, if_false, rateOptions, List.foldl]
    simp only [stepOption, diffLt, candidateFor, candidateDiff]
    split_ifs with h1 h2 h2 <;> simp_all
    linarith

lemma resolve_cases (t : ℚ) (h : t ≠ 0) :
    calculateMetricsFromAmount t = candidateFor t 60
      ∨ calculateMetricsFromAmount t = candidateFor t 65 := by
  rw [resolve_eq_spec]
  unfold resolveSpec
  split_ifs <;> simp_all

lemma candidateFor_hours_ge (t r : ℚ) : 1 ≤ (candidateFor t r).hours :=
  le_max_left _ _

lemma candidateFor_amount_eq (t r : ℚ) :
    (candidateFor t r).amount = ((candidateFor t r).hours : ℚ) * r := rfl

lemma jsRound_nonpos_of_neg {t r : ℚ} (ht : t < 0) (hr : 0 < r) :
    jsRound (t / r) ≤ 0 := by
  have hd : t / r < 0 := div_neg_of_neg_of_pos ht hr
  have h1 : ⌊t / r + 1/2⌋ < 1 := by
    apply Int.floor_lt.mpr
    push_cast
    linarith
  unfold jsRound
  omega

lemma resolve_130 : calculateMetricsFromAmount 130 = { hours := 2, rate := 65, amount := 130 } := by
  rw [resolve_eq_spec]
  norm_num [resolveSpec, candidateFor, candidateDiff, jsRound]

/-- C2: the resolver agrees with the specified search (enumerate 60 then
65, round and clamp the hours, keep the strictly smaller difference, so an
exact tie goes to 60), returns hours 0, the default rate 65 and amount 0
for a zero target without searching, resolves 130 to 2 hours at rate 65,
and on the exact tie at target 125 the earlier-enumerated rate 60 wins. -/
theorem calculateMetricsFromAmount_correct :
    (∀ t : ℚ, calculateMetricsFromAmount t = resolveSpec t)
    ∧ calculateMetricsFromAmount 0 = { hours := 0, rate := 65, amount := 0 }
    ∧ calculateMetricsFromAmount 130 = { hours := 2, rate := 65, amount := 130 }
    ∧ (candidateDiff 125 60 = candidateDiff 125 65
        ∧ calculateMetricsFromAmount 125 = { hours := 2, rate := 60, amount := 120 }) := by
  refine ⟨resolve_eq_spec, by norm_num [calculateMetricsFromAmount], resolve_130, ?_, ?_⟩
  · norm_num [candidateDiff, candidateFor, jsRound]
  · rw [resolve_eq_spec]
    norm_num [resolveSpec, candidateFor, candidateDiff, jsRound]

lemma candidateFor_amount_ge (t : ℚ) {r : ℚ} (hr : 60 ≤ r) :
    60 ≤ (candidateFor t r).amount := by
  have h1 : (1 : ℚ) ≤ ((candidateFor t r).hours : ℚ) := by
    exact_mod_cast candidateFor_hours_ge t r
  rw [candidateFor_amount_eq]
  nlinarith

/-- C10: for every nonzero target the resolver returns integer hours at
least 1, a rate in the allowed set, and an amount equal to hours times
rate, hence at least 60; a small positive target such as 5 snaps up to 60,
and every negative target resolves to exactly 1 hour at rate 60, amount
60. -/
theorem calculateMetricsFromAmount_range :
    (∀ t : ℚ, t ≠ 0 →
      1 ≤ (calculateMetricsFromAmount t).hours
      ∧ ((calculateMetricsFromAmount t).rate = 60 ∨ (calculateMetricsFromAmount t).rate = 65)
      ∧ (calculateMetricsFromAmount t).amount
          = ((calculateMetricsFromAmount t).hours : ℚ) * (calculateMetricsFromAmount t).rate
      ∧ 60 ≤ (calculateMetricsFromAmount t).amount)
    ∧ calculateMetricsFromAmount 5 = { hours := 1, rate := 60, amount := 60 }
    ∧ (∀ t : ℚ, t < 0 → calculateMetricsFromAmount t = { hours := 1, rate := 60, amount := 60 }) := by
  refine ⟨fun t ht => ?_, ?_, fun t ht => ?_⟩
  · rcases resolve_cases t ht with h | h <;> rw [h]
    · exact ⟨candidateFor_hours_ge _ _, Or.inl rfl, candidateFor_amount_eq _ _,
        candidateFor_amount_ge _ (by norm_num)⟩
    · exact ⟨candidateFor_hours_ge _ _, Or.inr rfl, candidateFor_amount_eq _ _,
        candidateFor_amount_ge _ (by norm_num)⟩
  · rw [resolve_eq_spec]
    norm_num [resolveSpec, candidateFor, candidateDiff, jsRound]
  · have ht0 : t ≠ 0 := ne_of_lt ht
    rw [resolve_eq_spec]
    unfold resolveSpec
    rw [if_neg ht0]
    have h60 := jsRound_nonpos_of_neg ht (by norm_num : (0:ℚ) < 60)
    have h65 := jsRound_nonpos_of_neg ht (by norm_num : (0:ℚ) < 65)
    have hc60 : candidateFor t 60 = { hours := 1, rate := 60, amount := 60 } := by
      unfold candidateFor
      have hm : max 1 (jsRound (t/60)) = 1 := by omega
      simp [hm]
    have hc65 : candidateFor t 65 = { hours := 1, rate := 65, amount := 65 } := by
      unfold candidateFor
      have hm : max 1 (jsRound (t/65)) = 1 := by omega
      simp [hm]
    have hd60 : candidateDiff t 60 = 60 - t := by
      unfold candidateDiff
      rw [hc60, abs_of_nonpos (by simp; linarith)]
      ring
    have hd65 : candidateDiff t 65 = 65 - t := by
      unfold candidateDiff
      rw [hc65, abs_of_nonpos (by simp; linarith)]
      ring
    rw [if_neg, hc60]
    rw [not_lt, hd60, hd65]
    linarith

/-- Witness instantiating the hypotheses of the C10 theorem at concrete
targets 130 and -100. -/
theorem calculateMetricsFromAmount_range_witness :
    (1 ≤ (calculateMetricsFromAmount 130).hours
      ∧ ((calculateMetricsFromAmount 130).rate = 60 ∨ (calculateMetricsFromAmount 130).rate = 65)
      ∧ (calculateMetricsFromAmount 130).amount
          = ((calculateMetricsFromAmount 130).hours : ℚ) * (calculateMetricsFromAmount 130).rate
      ∧ 60 ≤ (calculateMetricsFromAmount 130).amount)
    ∧ calculateMetricsFromAmount (-100) = { hours := 1, rate := 60, amount := 60 } :=
  ⟨calculateMetricsFromAmount_range.1 130 (by norm_num),
   calculateMetricsFromAmount_range.2.2 (-100) (by norm_num)⟩

/-! ## Line amount calculator (calculations.ts, calculateLineAmount) -/

/-- Embedding of calculateLineAmount: round the product of hours and
rate. -/
def calculateLineAmount (hours rate : ℚ) : ℚ :=
  jsRoundQ (hours * rate)

/-- The guard used where the item-change handler recomputes an amount:
calculateLineAmount is invoked on h || 0 and r || 0, so a missing operand
is coerced to zero before multiplying. -/
def calculateLineAmountGuarded (hours rate : Option ℚ) : ℚ :=
  calculateLineAmount (hours.getD 0) (rate.getD 0)

lemma jsRound_zero : jsRound (0 : ℚ) = 0 := by
  have h := jsRound_intCast 0
  simpa using h

lemma calculateLineAmount_zero_left (r : ℚ) : calculateLineAmount 0 r = 0 := by
  simp [calculateLineAmount, jsRoundQ, jsRound_zero]

lemma calculateLineAmount_zero_right (h : ℚ) : calculateLineAmount h 0 = 0 := by
  simp [calculateLineAmount, jsRoundQ, jsRound_zero]

/-- C5: the line amount is the product of hours and rate under the single
rounding rule jsRound, which is a rounding to the nearest whole unit
(distance at most one half); zero hours or zero rate give amount 0; and a
missing hours or rate operand is treated as zero before multiplying. -/
theorem calculateLineAmount_correct :
    (∀ h r : ℚ, 0 ≤ h → 0 ≤ r →
      calculateLineAmount h r = jsRoundQ (h * r)
      ∧ (∃ n : ℤ, calculateLineAmount h r = (n : ℚ))
      ∧ |h * r - calculateLineAmount h r| ≤ 1/2)
    ∧ (∀ r : ℚ, calculateLineAmount 0 r = 0)
    ∧ (∀ h : ℚ, calculateLineAmount h 0 = 0)
    ∧ (∀ r : Option ℚ, calculateLineAmountGuarded none r = 0)
    ∧ (∀ h : Option ℚ, calculateLineAmountGuarded h none = 0) := by
  refine ⟨fun h r _ _ => ⟨rfl, ⟨jsRound (h * r), rfl⟩, jsRound_half_dist _⟩,
    calculateLineAmount_zero_left, calculateLineAmount_zero_right, fun r => ?_, fun h => ?_⟩
  · simpa [calculateLineAmountGuarded] using calculateLineAmount_zero_left _
  · simpa [calculateLineAmountGuarded] using calculateLineAmount_zero_right _

/-- Witness instantiating the hypotheses of the C5 theorem at hours 3,
rate 7. -/
theorem calculateLineAmount_correct_witness :
    calculateLineAmount 3 7 = jsRoundQ (3 * 7)
      ∧ (∃ n : ℤ, calculateLineAmount 3 7 = (n : ℚ))
      ∧ |(3 : ℚ) * 7 - calculateLineAmount 3 7| ≤ 1/2 :=
  calculateLineAmount_correct.1 3 7 (by norm_num) (by norm_num)

/-! ## Category switch and amount editing (App component, handleItemChange
and handleAmountBlur) -/

/-- Embedding of the type branch of handleItemChange: switching to expense
forces quantity 1 and rate = current amount; switching to service keeps
the hours (defaulted to 1 when zero) and recomputes rate = amount / hours;
the amount is untouched in both directions. -/
def toggleType (item : LineItem) (newType : LineItemType) : LineItem :=
  match newType with
  | LineItemType.expense =>
      { item with type := LineItemType.expense, hours := 1, rate := item.amount }
  | LineItemType.service =>
      let h : ℚ := if item.hours = 0 then 1 else item.hours
      { item with type := LineItemType.service, hours := h, rate := item.amount / h }

/-- Embedding of the amount branch of handleItemChange (one keystroke):
the typed value is stored as the amount without snapping, and the rate is
back-derived from the current hours (defaulted to 1 when zero). -/
def editAmount (item : LineItem) (val : ℚ) : LineItem :=
  let h : ℚ := if item.hours = 0 then 1 else item.hours
  { item with amount := val, hours := h, rate := val / h }

/-- Embedding of handleAmountBlur for the targeted item: the commit signal
runs the reverse resolver, and only for service items. -/
def handleAmountBlur (item : LineItem) : LineItem :=
  if item.type = LineItemType.service then
    let metrics := calculateMetricsFromAmount item.amount
    { item with hours := (metrics.hours : ℚ), rate := metrics.rate, amount := metrics.amount }
  else item

/-- Concrete item of the C4 specification example. -/
def exToggle : LineItem :=
  { type := LineItemType.service, date := "", description := "", hours := 5, rate := 20, amount := 100 }

/-- C4: toggling the category never changes the amount; switching to
expense sets quantity 1 and rate = amount; switching to service keeps the
hours (default 1 when zero) and sets rate = amount / hours; the example
item switches to expense as quantity 1, rate 100, amount 100, and back to
service with amount still 100. -/
theorem toggleType_correct :
    (∀ (item : LineItem) (ty : LineItemType), (toggleType item ty).amount = item.amount)
    ∧ (∀ item : LineItem,
        (toggleType item LineItemType.expense).hours = 1
        ∧ (toggleType item LineItemType.expense).rate = item.amount)
    ∧ (∀ item : LineItem,
        (toggleType item LineItemType.service).hours = (if item.hours = 0 then 1 else item.hours)
        ∧ (toggleType item LineItemType.service).rate
            = item.amount / (if item.hours = 0 then 1 else item.hours))
    ∧ toggleType exToggle LineItemType.expense
        = { exToggle with type := LineItemType.expense, hours := 1, rate := 100 }
    ∧ (toggleType (toggleType exToggle LineItemType.expense) LineItemType.service).amount = 100 := by
  refine ⟨fun item ty => ?_, fun item => ⟨rfl, rfl⟩, fun item => ⟨rfl, rfl⟩, ?_, ?_⟩
  · cases ty <;> rfl
  · norm_num [toggleType, exToggle]
  · norm_num [toggleType, exToggle]

/-- Concrete service item used to show a keystroke edit does not snap. -/
def exEditItem : LineItem :=
  { type := LineItemType.service, date := "", description := "", hours := 2, rate := 65, amount := 130 }

/-- C9: a keystroke edit of the amount stores the typed value unsnapped
and only back-derives a consistent rate from the current hours (so hours
times rate equals the typed amount, and the value 7 survives unchanged
although the resolver would snap it to 60); the resolver runs exactly on
the blur commit and only for service items, an expense item being
returned unchanged by the commit handler. -/
theorem amountEdit_commit_correct :
    (∀ (item : LineItem) (val : ℚ),
      (editAmount item val).amount = val
      ∧ (editAmount item val).hours * (editAmount item val).rate = val
      ∧ (editAmount item val).type = item.type
      ∧ (editAmount item val).description = item.description)
    ∧ ((editAmount exEditItem 7).amount = 7 ∧ (calculateMetricsFromAmount 7).amount = 60)
    ∧ (∀ item : LineItem, item.type = LineItemType.service →
        handleAmountBlur item =
          { item with
              hours := ((calculateMetricsFromAmount item.amount).hours : ℚ)
              rate := (calculateMetricsFromAmount item.amount).rate
              amount := (calculateMetricsFromAmount item.amount).amount })
    ∧ (∀ item : LineItem, item.type = LineItemType.expense → handleAmountBlur item = item) := by
  refine ⟨fun item val => ⟨rfl, ?_, rfl, rfl⟩, ⟨rfl, ?_⟩, fun item hty => ?_, fun item hty => ?_⟩
  · show (if item.hours = 0 then 1 else item.hours) * (val / (if item.hours = 0 then 1 else item.hours)) = val
    split_ifs with h0
    · norm_num
    · field_simp
  · rw [resolve_eq_spec]
    norm_num [resolveSpec, candidateFor, candidateDiff, jsRound]
  · simp [handleAmountBlur, hty]
  · simp [handleAmountBlur, hty]

/-- Witness instantiating the hypotheses of the C9 theorem: the blur
commit snaps the concrete service item and leaves a concrete expense item
unchanged. -/
theorem amountEdit_commit_correct_witness :
    handleAmountBlur exEditItem =
      { exEditItem with
          hours := ((calculateMetricsFromAmount exEditItem.amount).hours : ℚ)
          rate := (calculateMetricsFromAmount exEditItem.amount).rate
          amount := (calculateMetricsFromAmount exEditItem.amount).amount }
    ∧ handleAmountBlur exExpense50 = exExpense50 :=
  ⟨amountEdit_commit_correct.2.2.1 exEditItem rfl,
   amountEdit_commit_correct.2.2.2 exExpense50 rfl⟩

/-! ## Date normalizer (calculations.ts, normalizeDateToISO and
formatDateForDisplay) -/

/-- Match of the canonical shape YYYY-MM-DD (the anchored digit pattern of
the source); on a match, return the characters re-ordered for display as
the split-and-template of the source produces them. -/
def displayOfCanonical (l : List Char) : Option (List Char) :=
  match l with
  | [y1, y2, y3, y4, c1, m1, m2, c2, d1, d2] =>
      if y1.isDigit && y2.isDigit && y3.isDigit && y4.isDigit && c1 == '-' &&
          m1.isDigit && m2.isDigit && c2 == '-' && d1.isDigit && d2.isDigit then
        some [d1, d2, '/', m1, m2, '/', y1, y2, y3, y4]
      else none
  | _ => none

/-- Test for the canonical shape YYYY-MM-DD. -/
def isCanonicalISO (s : String) : Bool :=
  (displayOfCanonical s.toList).isSome

/-- Anchored match of the day/month/year pattern: one or two digits, a
slash or dash, one or two digits, a slash or dash, exactly four digits. -/
def parseDMY (l : List Char) : Option (List Char × List Char × List Char) :=
  let d := l.takeWhile Char.isDigit
  match l.dropWhile Char.isDigit with
  | c1 :: r2 =>
    if (c1 == '/' || c1 == '-') && (d.length == 1 || d.length == 2) then
      let m := r2.takeWhile Char.isDigit
      match r2.dropWhile Char.isDigit with
      | c2 :: r4 =>
        if (c2 == '/' || c2 == '-') && (m.length == 1 || m.length == 2) then
          let y := r4.takeWhile Char.isDigit
          if y.length == 4 && (r4.dropWhile Char.isDigit).isEmpty then
            some (d, m, y)
          else none
        else none
      | [] => none
    else none
  | [] => none

/-- Zero padding to two characters, as padStart does on the one or two
digit day and month groups. -/
def pad2 (l : List Char) : List Char :=
  if l.length == 1 then '0' :: l else l

/-- Embedding of normalizeDateToISO.  The host Date.parse fallback is an
external platform call, abstracted as the dateParse oracle which returns
the canonical rendering on success and nothing on failure; the rest is
the source logic: empty in, empty out; canonical input unchanged;
day/month/year re-ordered and padded; otherwise the oracle result or the
original text. -/
def normalizeDateToISO (dateParse : String → Option String) (dateStr : String) : String :=
  if dateStr = "" then ""
  else if isCanonicalISO dateStr then dateStr
  else
    match parseDMY dateStr.toList with
    | some (d, m, y) => String.mk (y ++ '-' :: pad2 m ++ '-' :: pad2 d)
    | none =>
      match dateParse dateStr with
      | some iso => iso
      | none => dateStr

/-- Embedding of formatDateForDisplay: canonical dates are re-ordered to
DD/MM/YYYY, anything else passes through. -/
def formatDateForDisplay (dateStr : String) : String :=
  if dateStr = "" then ""
  else
    match displayOfCanonical dateStr.toList with
    | some out => String.mk out
    | none => dateStr

/-- C7: toCanonical is the identity on canonical YYYY-MM-DD strings (for
any behaviour of the platform date parser), re-orders and zero-pads
day/month/year input so the display round trip holds on 15/03/2024,
returns unparseable input unchanged, maps empty to empty, and toDisplay
returns any non-canonical input unchanged. -/
theorem dateNormalizer_correct :
    (∀ p : String → Option String, normalizeDateToISO p "2024-03-15" = "2024-03-15")
    ∧ (∀ (p : String → Option String) (s : String),
        isCanonicalISO s = true → normalizeDateToISO p s = s)
    ∧ (∀ p : String → Option String,
        normalizeDateToISO p "15/03/2024" = "2024-03-15"
        ∧ formatDateForDisplay (normalizeDateToISO p "15/03/2024") = "15/03/2024")
    ∧ (∀ (p : String → Option String) (s : String),
        isCanonicalISO s = false → parseDMY s.toList = none → p s = none →
        normalizeDateToISO p s = s)
    ∧ (∀ p : String → Option String, normalizeDateToISO p "" = "")
    ∧ (∀ s : String, isCanonicalISO s = false → formatDateForDisplay s = s) := by
  refine ⟨fun p => rfl, fun p s h => ?_, fun p => ⟨rfl, rfl⟩, fun p s h1 h2 h3 => ?_,
    fun p => rfl, fun s h => ?_⟩
  · by_cases hs : s = ""
    · simp [normalizeDateToISO, hs]
    · simp [normalizeDateToISO, hs, h]
  · have h2d : parseDMY s.data = none := h2
    by_cases hs : s = ""
    · simp [normalizeDateToISO, hs]
    · simp [normalizeDateToISO, hs, h1, h2d, h3]
  · have hd : displayOfCanonical s.toList = none := by
      cases hc : displayOfCanonical s.toList with
      | none => rfl
      | some v =>
        rw [isCanonicalISO, hc] at h
        simp at h
    have hdd : displayOfCanonical s.data = none := hd
    by_cases hs : s = ""
    · simp [formatDateForDisplay, hs]
    · simp [formatDateForDisplay, hs, hdd]

/-- Witness instantiating the hypotheses of the C7 theorem: the always
failing oracle together with the canonical date 2024-03-15 and the
unparseable text hello. -/
theorem dateNormalizer_correct_witness :
    normalizeDateToISO (fun _ => none) "2024-03-15" = "2024-03-15"
    ∧ normalizeDateToISO (fun _ => none) "hello" = "hello"
    ∧ formatDateForDisplay "hello" = "hello" :=
  ⟨dateNormalizer_correct.2.1 (fun _ => none) "2024-03-15" rfl,
   dateNormalizer_correct.2.2.2.1 (fun _ => none) "hello" rfl rfl rfl,
   dateNormalizer_correct.2.2.2.2.2 "hello" rfl⟩

/-! ## Host numbers for the import normalizer.

The import code divides by values that can be zero, and the host keeps
computing with the resulting non-finite numbers, so the embedding makes
them explicit. -/

inductive JSNum where
  | num (q : ℚ)
  | nan
  | inf
  | ninf
deriving DecidableEq, Repr

namespace JSNum

def isNaN : JSNum → Bool
  | nan => true
  | _ => false

def isZero : JSNum → Bool
  | num q => q == 0
  | _ => false

def gtZero : JSNum → Bool
  | num q => decide (0 < q)
  | inf => true
  | _ => false

/-- Host multiplication, including its non-finite cases (zero times an
infinity is NaN). -/
def mul : JSNum → JSNum → JSNum
  | nan, _ => nan
  | _, nan => nan
  | num a, num b => num (a * b)
  | num a, inf => if a = 0 then nan else if 0 < a then inf else ninf
  | num a, ninf => if a = 0 then nan else if 0 < a then ninf else inf
  | inf, num b => if b = 0 then nan else if 0 < b then inf else ninf
  | ninf, num b => if b = 0 then nan else if 0 < b then ninf else inf
  | inf, inf => inf
  | inf, ninf => ninf
  | ninf, inf => ninf
  | ninf, ninf => inf

/-- Host division: a nonzero value divided by zero is a signed infinity,
zero by zero is NaN. -/
def div : JSNum → JSNum → JSNum
  | nan, _ => nan
  | _, nan => nan
  | num a, num b =>
      if b = 0 then (if a = 0 then nan else if 0 < a then inf else ninf)
      else num (a / b)
  | num _, inf => num 0
  | num _, ninf => num 0
  | inf, num b => if 0 ≤ b then inf else ninf
  | ninf, num b => if 0 ≤ b then ninf else inf
  | inf, inf => nan
  | inf, ninf => nan
  | ninf, inf => nan
  | ninf, ninf => nan

end JSNum

def digitsToNat (l : List Char) : ℕ :=
  l.foldl (fun a c => a * 10 + (c.toNat - 48)) 0

/-- Embedding of the platform parseFloat on the values the import feeds
it: a missing cell is NaN, an optionally signed decimal numeral parses by
its longest valid prefix, anything else is NaN. -/
def jsParseFloat : Option String → JSNum
  | none => JSNum.nan
  | some s =>
    let l := s.toList
    let sl : ℚ × List Char :=
      match l with
      | '-' :: t => (-1, t)
      | '+' :: t => (1, t)
      | _ => (1, l)
    let ip := sl.2.takeWhile Char.isDigit
    let r1 := sl.2.dropWhile Char.isDigit
    let fp := match r1 with
      | '.' :: t => t.takeWhile Char.isDigit
      | _ => []
    if ip.isEmpty && fp.isEmpty then JSNum.nan
    else JSNum.num (sl.1 * ((digitsToNat ip : ℚ) + (digitsToNat fp : ℚ) / (10 : ℚ) ^ fp.length))

/-! ## Row classification and import normalizer (App component,
handleCSVImport row mapping) -/

/-- ASCII lowercasing, the toLowerCase of the source on the header and
category text the import handles. -/
def lowerStr (s : String) : String :=
  String.mk (s.toList.map Char.toLower)

def containsSubAux (pat : List Char) : List Char → Bool
  | [] => pat.isEmpty
  | c :: t => pat.isPrefixOf (c :: t) || containsSubAux pat t

/-- Substring test, the includes and regex-literal tests of the source. -/
def containsSub (s pat : String) : Bool :=
  containsSubAux pat.toList s.toList

/-- Embedding of getRowValue: an exact key pass over the candidate aliases
first, then a case-insensitive pass; empty values are skipped. -/
def getRowValue (row : List (String × String)) (candidates : List String) : Option String :=
  let exact := candidates.findSome? (fun c =>
    (row.find? (fun p => p.1 == c)).bind (fun p => if p.2 == "" then none else some p.2))
  match exact with
  | some v => some v
  | none =>
    candidates.findSome? (fun c =>
      (row.find? (fun p => lowerStr p.1 == lowerStr c)).bind
        (fun p => if p.2 == "" then none else some p.2))

/-- The fixed expense vocabulary of the classifier regex. -/
def expenseKeywords : List String :=
  ["material", "mitre 10", "bunnings", "placemakers", "carters", "itm",
   "fuel", "parking", "expense", "reimburse", "cost", "hardware", "fasten",
   "screw", "nail", "timber", "concrete", "paint", "hire", "consumable",
   "store", "merchant"]

/-- A raw import record after field resolution: the three numeric cells as
the host parsed them (NaN when missing or malformed), the description text
and the explicit category cell when present. -/
structure ResolvedRaw where
  rawAmount : JSNum
  rawHours : JSNum
  rawRate : JSNum
  desc : String
  explicitType : Option String
deriving DecidableEq, Repr

/-- Embedding of the smart type detection: an explicit category containing
the word expense wins, otherwise the description is matched against the
expense vocabulary, otherwise service. -/
def classify (raw : ResolvedRaw) : LineItemType :=
  let lowerDesc := lowerStr raw.desc
  let isExplicitExpense :=
    match raw.explicitType with
    | some t => containsSub (lowerStr t) "expense"
    | none => false
  let isImplicitExpense := expenseKeywords.any (fun k => containsSub lowerDesc k)
  if isExplicitExpense || isImplicitExpense then LineItemType.expense
  else LineItemType.service

/-- The resolver lifted to host numbers.  A NaN or infinite target leaves
every loop comparison false, so the seed hours 0, rate 65, amount 0 is
returned, which is also what the zero guard returns. -/
def calculateMetricsFromAmountJS : JSNum → JSNum × JSNum × JSNum
  | JSNum.num q =>
      let m := calculateMetricsFromAmount q
      (JSNum.num (m.hours : ℚ), JSNum.num m.rate, JSNum.num m.amount)
  | _ => (JSNum.num 0, JSNum.num 65, JSNum.num 0)

def jsRoundJS : JSNum → JSNum
  | JSNum.num q => JSNum.num (jsRoundQ q)
  | x => x

/-- The line amount calculator on host numbers: Math.round of the
product. -/
def calculateLineAmountJS (h r : JSNum) : JSNum :=
  jsRoundJS (h.mul r)

/-- Embedding of the expense branch of the import row mapping, returning
(hours, rate, amount).  The guard after the derived quantity catches NaN
and zero but not an infinite quotient. -/
def expenseResolve (rowAmount rowHours rowRate : JSNum) : JSNum × JSNum × JSNum :=
  if !rowAmount.isNaN then
    if !rowRate.isNaN then
      if !rowHours.isNaN then (rowHours, rowRate, rowAmount)
      else
        let fh := rowAmount.div rowRate
        let fh2 := if fh.isNaN || fh.isZero then JSNum.num 1 else fh
        (fh2, rowRate, rowAmount)
    else
      let fh := if !rowHours.isNaN then rowHours else JSNum.num 1
      (fh, rowAmount.div fh, rowAmount)
  else
    if !rowHours.isNaN && !rowRate.isNaN then (rowHours, rowRate, rowHours.mul rowRate)
    else (JSNum.num 0, JSNum.num 65, JSNum.num 0)

/-- Embedding of the service branch of the import row mapping: a present
nonzero amount goes through the reverse resolver, otherwise the forward
calculation from the given hours and a positive given rate (default
65). -/
def serviceResolve (rowAmount rowHours rowRate : JSNum) : JSNum × JSNum × JSNum :=
  if !rowAmount.isNaN && !rowAmount.isZero then
    calculateMetricsFromAmountJS rowAmount
  else
    let fh := if !rowHours.isNaN then rowHours else JSNum.num 0
    let fr := if !rowRate.isNaN && rowRate.gtZero then rowRate else JSNum.num 65
    (fh, fr, calculateLineAmountJS fh fr)

/-- A normalized line item candidate as the import produces it (the random
id and the date cell are not part of the verified numeric logic). -/
structure NormItem where
  type : LineItemType
  description : String
  hours : JSNum
  rate : JSNum
  amount : JSNum
deriving DecidableEq, Repr

/-- Embedding of the per-row mapping of handleCSVImport after field
resolution: classify, resolve the numeric fields by category, default the
description. -/
def normalizeRow (raw : ResolvedRaw) : NormItem :=
  let ty := classify raw
  let hra :=
    match ty with
    | LineItemType.expense => expenseResolve raw.rawAmount raw.rawHours raw.rawRate
    | LineItemType.service => serviceResolve raw.rawAmount raw.rawHours raw.rawRate
  { type := ty
    description :=
      if raw.desc = "" then
        (if ty = LineItemType.service then "Residential Build" else "Materials")
      else raw.desc
    hours := hra.1
    rate := hra.2.1
    amount := hra.2.2 }

/-- Field resolution of handleCSVImport: the alias lists of the source,
each resolved through getRowValue and the numeric ones parsed. -/
def mkResolvedRaw (row : List (String × String)) : ResolvedRaw :=
  { rawAmount := jsParseFloat (getRowValue row ["amount", "total", "line total", "gross", "amt"])
    rawHours := jsParseFloat (getRowValue row ["hours", "hrs", "quantity", "qty", "count", "quantity (hrs)"])
    rawRate := jsParseFloat (getRowValue row ["rate", "unit price", "cost", "price", "unit cost", "rate ($)"])
    desc := (getRowValue row ["description", "item", "activity", "details", "memo", "notes", "task"]).getD ""
    explicitType := getRowValue row ["type", "category"] }

/-- The full row normalizer of the tabular import. -/
def normalizeCSVRow (row : List (String × String)) : NormItem :=
  normalizeRow (mkResolvedRaw row)

lemma classify_expense_iff (raw : ResolvedRaw) :
    classify raw = LineItemType.expense
      ↔ ((∃ t, raw.explicitType = some t ∧ containsSub (lowerStr t) "expense" = true)
          ∨ ∃ k ∈ expenseKeywords, containsSub (lowerStr raw.desc) k = true) := by
  unfold classify
  rcases hET : raw.explicitType with _ | t
  · simp_all [List.any_eq_true]
  · simp_all [List.any_eq_true]
    cases hc : containsSub (lowerStr t) "expense" <;> simp_all

/-- C3: every raw import record is classified expense exactly when its
explicit category text contains the word expense or its description
matches the fixed expense vocabulary, otherwise service; the Bunnings
screws row with amount 45 becomes an expense with quantity 1, rate 45,
amount 45, and the Site consultation row with amount 130 becomes a
service item resolved to 2 hours at rate 65, amount 130. -/
theorem normalizeCSVRow_correct :
    (∀ row : List (String × String),
      (normalizeCSVRow row).type = LineItemType.expense
        ↔ ((∃ t, getRowValue row ["type", "category"] = some t
              ∧ containsSub (lowerStr t) "expense" = true)
            ∨ ∃ k ∈ expenseKeywords,
                containsSub (lowerStr ((getRowValue row
                  ["description", "item", "activity", "details", "memo", "notes", "task"]).getD ""))
                  k = true))
    ∧ normalizeCSVRow [("Description", "Bunnings screws"), ("Amount", "45")]
        = { type := LineItemType.expense, description := "Bunnings screws",
            hours := JSNum.num 1, rate := JSNum.num 45, amount := JSNum.num 45 }
    ∧ normalizeCSVRow [("description", "Site consultation"), ("amount", "130")]
        = { type := LineItemType.service, description := "Site consultation",
            hours := JSNum.num 2, rate := JSNum.num 65, amount := JSNum.num 130 } := by
  refine ⟨fun row => ?_, ?_, ?_⟩
  · have h := classify_expense_iff (mkResolvedRaw row)
    simpa [normalizeCSVRow, normalizeRow, mkResolvedRaw] using h
  · have h45 : jsParseFloat (some "45") = JSNum.num 45 := by
      show JSNum.num (1 * ((digitsToNat ['4', '5'] : ℚ) + (digitsToNat [] : ℚ) / (10 : ℚ) ^ (0 : ℕ)))
          = JSNum.num 45
      rw [show digitsToNat ['4', '5'] = 45 from rfl, show digitsToNat [] = 0 from rfl]
      norm_num
    have hmk : mkResolvedRaw [("Description", "Bunnings screws"), ("Amount", "45")]
        = { rawAmount := jsParseFloat (some "45"), rawHours := JSNum.nan, rawRate := JSNum.nan,
            desc := "Bunnings screws", explicitType := none } := rfl
    have hnorm :
        normalizeRow
          { rawAmount := JSNum.num 45, rawHours := JSNum.nan, rawRate := JSNum.nan,
            desc := "Bunnings screws", explicitType := none }
        = { type := LineItemType.expense, description := "Bunnings screws",
            hours := JSNum.num 1, rate := JSNum.num (45 / 1), amount := JSNum.num 45 } := rfl
    show normalizeRow (mkResolvedRaw _) = _
    rw [hmk, h45, hnorm]
    norm_num
  · have h130 : jsParseFloat (some "130") = JSNum.num 130 := by
      show JSNum.num (1 * ((digitsToNat ['1', '3', '0'] : ℚ) + (digitsToNat [] : ℚ) / (10 : ℚ) ^ (0 : ℕ)))
          = JSNum.num 130
      rw [show digitsToNat ['1', '3', '0'] = 130 from rfl, show digitsToNat [] = 0 from rfl]
      norm_num
    have hmk : mkResolvedRaw [("description", "Site consultation"), ("amount", "130")]
        = { rawAmount := jsParseFloat (some "130"), rawHours := JSNum.nan, rawRate := JSNum.nan,
            desc := "Site consultation", explicitType := none } := rfl
    have hnorm :
        normalizeRow
          { rawAmount := JSNum.num 130, rawHours := JSNum.nan, rawRate := JSNum.nan,
            desc := "Site consultation", explicitType := none }
        = { type := LineItemType.service, description := "Site consultation",
            hours := JSNum.num ((calculateMetricsFromAmount 130).hours : ℚ),
            rate := JSNum.num (calculateMetricsFromAmount 130).rate,
            amount := JSNum.num (calculateMetricsFromAmount 130).amount } := rfl
    show normalizeRow (mkResolvedRaw _) = _
    rw [hmk, h130, hnorm, resolve_130]
    norm_num

/-- C6: evaluation of the import normalizer at the row type expense,
amount 45, rate 0.  The derived quantity is amount divided by rate, the
host division by zero yields Infinity, and the guard after it only
catches NaN and zero, so a non-finite value lands in the quantity field
although the claim requires the division to fall back to 1 and no
non-finite value ever to appear. -/
theorem normalizeCSVRow_divzero_bug :
    (normalizeCSVRow [("type", "expense"), ("amount", "45"), ("rate", "0")]).hours = JSNum.inf
    ∧ (normalizeCSVRow [("type", "expense"), ("amount", "45"), ("rate", "0")]).rate = JSNum.num 0
    ∧ (normalizeCSVRow [("type", "expense"), ("amount", "45"), ("rate", "0")]).amount
        = JSNum.num 45 := by
  have h45 : jsParseFloat (some "45") = JSNum.num 45 := by
    show JSNum.num (1 * ((digitsToNat ['4', '5'] : ℚ) + (digitsToNat [] : ℚ) / (10 : ℚ) ^ (0 : ℕ)))
        = JSNum.num 45
    rw [show digitsToNat ['4', '5'] = 45 from rfl, show digitsToNat [] = 0 from rfl]
    norm_num
  have h0 : jsParseFloat (some "0") = JSNum.num 0 := by
    show JSNum.num (1 * ((digitsToNat ['0'] : ℚ) + (digitsToNat [] : ℚ) / (10 : ℚ) ^ (0 : ℕ)))
        = JSNum.num 0
    rw [show digitsToNat ['0'] = 0 from rfl, show digitsToNat [] = 0 from rfl]
    norm_num
  have hmk : mkResolvedRaw [("type", "expense"), ("amount", "45"), ("rate", "0")]
      = { rawAmount := jsParseFloat (some "45"), rawHours := JSNum.nan,
          rawRate := jsParseFloat (some "0"), desc := "", explicitType := some "expense" } := rfl
  have hnorm :
      normalizeRow
        { rawAmount := JSNum.num 45, rawHours := JSNum.nan, rawRate := JSNum.num 0,
          desc := "", explicitType := some "expense" }
      = { type := LineItemType.expense, description := "Materials",
          hours := JSNum.inf, rate := JSNum.num 0, amount := JSNum.num 45 } := rfl
  refine ⟨?_, ?_, ?_⟩
  · show (normalizeRow (mkResolvedRaw _)).hours = _
    rw [hmk, h45, h0, hnorm]
  · show (normalizeRow (mkResolvedRaw _)).rate = _
    rw [hmk, h45, h0, hnorm]
  · show (normalizeRow (mkResolvedRaw _)).amount = _
    rw [hmk, h45, h0, hnorm]

/-! ## Stability of the resolver on its own outputs (towards the
idempotence analysis of the import normalizer) -/

lemma candidateDiff_nonneg (t r : ℚ) : 0 ≤ candidateDiff t r :=
  abs_nonneg _

lemma resolve_amount_ge (t : ℚ) (ht : t ≠ 0) :
    60 ≤ (calculateMetricsFromAmount t).amount := by
  rcases resolve_cases t ht with h | h <;> rw [h]
  · exact candidateFor_amount_ge _ (by norm_num)
  · exact candidateFor_amount_ge _ (by norm_num)

lemma jsRound_mul_nearest (t : ℚ) {r : ℚ} (hr : 0 < r) (k : ℤ) :
    |t - (jsRound (t / r) : ℚ) * r| ≤ |t - (k : ℚ) * r| := by
  have hr' : r ≠ 0 := ne_of_gt hr
  have h := jsRound_nearest (t / r) k
  unfold jsRoundQ at h
  have e1 : t - (jsRound (t / r) : ℚ) * r = (t / r - (jsRound (t / r) : ℚ)) * r := by
    field_simp
    ring
  have e2 : t - (k : ℚ) * r = (t / r - (k : ℚ)) * r := by
    field_simp
    ring
  rw [e1, e2, abs_mul, abs_mul, abs_of_pos hr]
  exact mul_le_mul_of_nonneg_right h (le_of_lt hr)

/-- Re-resolving the snapped amount of a resolver output reproduces the
same hours, rate and amount. -/
lemma resolve_fixed (t : ℚ) (ht : t ≠ 0) :
    calculateMetricsFromAmount ((calculateMetricsFromAmount t).amount)
      = calculateMetricsFromAmount t := by
  rw [resolve_eq_spec t]
  unfold resolveSpec
  rw [if_neg ht]
  by_cases hlt : candidateDiff t 65 < candidateDiff t 60
  · rw [if_pos hlt]
    obtain ⟨h65, hh65⟩ : ∃ h : ℤ, h = max 1 (jsRound (t / 65)) := ⟨_, rfl⟩
    have hone : 1 ≤ h65 := hh65 ▸ le_max_left _ _
    have honeQ : (1 : ℚ) ≤ (h65 : ℚ) := by exact_mod_cast hone
    have hcand : candidateFor t 65 = { hours := h65, rate := 65, amount := (h65 : ℚ) * 65 } := by
      rw [hh65]
      rfl
    rw [hcand]
    show calculateMetricsFromAmount ((h65 : ℚ) * 65) = _
    have ha_pos : (0 : ℚ) < (h65 : ℚ) * 65 := by nlinarith
    rw [resolve_eq_spec]
    unfold resolveSpec
    rw [if_neg (ne_of_gt ha_pos)]
    have hja : jsRound ((h65 : ℚ) * 65 / 65) = h65 := by
      have hq : ((h65 : ℚ) * 65) / 65 = (h65 : ℚ) := by norm_num
      rw [hq, jsRound_intCast]
    have hcand65a :
        candidateFor ((h65 : ℚ) * 65) 65 = { hours := h65, rate := 65, amount := (h65 : ℚ) * 65 } := by
      unfold candidateFor
      rw [hja, max_eq_right hone]
    have hd65a : candidateDiff ((h65 : ℚ) * 65) 65 = 0 := by
      unfold candidateDiff
      rw [hcand65a]
      simp
    have hd60a_pos : 0 < candidateDiff ((h65 : ℚ) * 65) 60 := by
      rcases lt_or_eq_of_le (candidateDiff_nonneg ((h65 : ℚ) * 65) 60) with hpos | hzero
    -- positive case is the goal, the zero case is refuted below
      · exact hpos
      · exfalso
        obtain ⟨k, hk⟩ : ∃ k : ℤ, k = max 1 (jsRound ((h65 : ℚ) * 65 / 60)) := ⟨_, rfl⟩
        have hz : |(h65 : ℚ) * 65 - (k : ℚ) * 60| = 0 := by
          rw [hk]
          exact hzero.symm
        have heq : (h65 : ℚ) * 65 = (k : ℚ) * 60 := by
          rwa [abs_eq_zero, sub_eq_zero] at hz
        have heqz : h65 * 65 = k * 60 := by exact_mod_cast heq
        have hdvd : (12 : ℤ) ∣ h65 := by omega
        have h12 : 12 ≤ h65 := by omega
        have hjr : jsRound (t / 65) = h65 := by omega
        have hta : (h65 : ℚ) ≤ t / 65 + 1 / 2 := by
          rw [← hjr]
          exact jsRound_sub_le _
        have h12Q : (12 : ℚ) ≤ (h65 : ℚ) := by exact_mod_cast h12
        have hj60 : 1 ≤ jsRound (t / 60) := by
          unfold jsRound
          rw [Int.le_floor]
          push_cast
          linarith
        have hmax60 : max 1 (jsRound (t / 60)) = jsRound (t / 60) := max_eq_right hj60
        have hle : candidateDiff t 60 ≤ candidateDiff t 65 := by
          have step1 : candidateDiff t 60 = |t - (jsRound (t / 60) : ℚ) * 60| := by
            unfold candidateDiff candidateFor
            rw [hmax60]
          have step2 : candidateDiff t 65 = |t - (h65 : ℚ) * 65| := by
            unfold candidateDiff candidateFor
            rw [← hh65]
          rw [step1, step2, heq]
          exact jsRound_mul_nearest t (by norm_num) k
        linarith
    have hcond : candidateDiff ((h65 : ℚ) * 65) 65 < candidateDiff ((h65 : ℚ) * 65) 60 := by
      rw [hd65a]
      exact hd60a_pos
    rw [if_pos hcond]
    exact hcand65a
  · rw [if_neg hlt]
    obtain ⟨h60, hh60⟩ : ∃ h : ℤ, h = max 1 (jsRound (t / 60)) := ⟨_, rfl⟩
    have hone : 1 ≤ h60 := hh60 ▸ le_max_left _ _
    have honeQ : (1 : ℚ) ≤ (h60 : ℚ) := by exact_mod_cast hone
    have hcand : candidateFor t 60 = { hours := h60, rate := 60, amount := (h60 : ℚ) * 60 } := by
      rw [hh60]
      rfl
    rw [hcand]
    show calculateMetricsFromAmount ((h60 : ℚ) * 60) = _
    have ha_pos : (0 : ℚ) < (h60 : ℚ) * 60 := by nlinarith
    rw [resolve_eq_spec]
    unfold resolveSpec
    rw [if_neg (ne_of_gt ha_pos)]
    have hja : jsRound ((h60 : ℚ) * 60 / 60) = h60 := by
      have hq : ((h60 : ℚ) * 60) / 60 = (h60 : ℚ) := by norm_num
      rw [hq, jsRound_intCast]
    have hcand60a :
        candidateFor ((h60 : ℚ) * 60) 60 = { hours := h60, rate := 60, amount := (h60 : ℚ) * 60 } := by
      unfold candidateFor
      rw [hja, max_eq_right hone]
    have hd60a : candidateDiff ((h60 : ℚ) * 60) 60 = 0 := by
      unfold candidateDiff
      rw [hcand60a]
      simp
    have hcond : ¬ candidateDiff ((h60 : ℚ) * 60) 65 < candidateDiff ((h60 : ℚ) * 60) 60 := by
      rw [hd60a]
      exact not_lt.mpr (candidateDiff_nonneg _ _)
    rw [if_neg hcond]
    exact hcand60a

/-! ## Idempotence analysis of the import normalizer -/

lemma isNaN_num (q : ℚ) : (JSNum.num q).isNaN = false := rfl

lemma isNaN_nan : JSNum.nan.isNaN = true := rfl

lemma isNaN_inf : JSNum.inf.isNaN = false := rfl

lemma isNaN_ninf : JSNum.ninf.isNaN = false := rfl

lemma isZero_num (q : ℚ) : (JSNum.num q).isZero = (q == 0) := rfl

lemma guard_not_nan (x : JSNum) :
    (if x.isNaN || x.isZero then JSNum.num 1 else x).isNaN = false := by
  cases x with
  | num q =>
    by_cases hq : q = 0
    · simp_all [JSNum.isNaN, JSNum.isZero]
    · simp_all [JSNum.isNaN, JSNum.isZero]
  | nan => simp [JSNum.isNaN, JSNum.isZero]
  | inf => simp [JSNum.isNaN, JSNum.isZero]
  | ninf => simp [JSNum.isNaN, JSNum.isZero]

/-- The expense numeric resolution is idempotent: feeding its output back
as amount, quantity and rate reproduces the same triple. -/
lemma expenseResolve_idem (A H R : JSNum) :
    expenseResolve (expenseResolve A H R).2.2 (expenseResolve A H R).1
        (expenseResolve A H R).2.1
      = expenseResolve A H R := by
  by_cases hA : A.isNaN = true
  · by_cases hH : H.isNaN = true
    · simp [expenseResolve, hA, hH, isNaN_num]
    · by_cases hR : R.isNaN = true
      · simp [expenseResolve, hA, hH, hR, isNaN_num]
      · by_cases hM : (H.mul R).isNaN = true
        · simp [expenseResolve, hA, hH, hR, hM]
        · simp [expenseResolve, hA, hH, hR, hM]
  · by_cases hR : R.isNaN = true
    · by_cases hH : H.isNaN = true
      · by_cases hD : (A.div (JSNum.num 1)).isNaN = true
        · simp [expenseResolve, hA, hR, hH, hD, isNaN_num]
        · simp [expenseResolve, hA, hR, hH, hD, isNaN_num]
      · by_cases hD : (A.div H).isNaN = true
        · simp [expenseResolve, hA, hR, hH, hD]
        · simp [expenseResolve, hA, hR, hH, hD]
    · by_cases hH : H.isNaN = true
      · simp [expenseResolve, hA, hR, hH, guard_not_nan]
      · simp [expenseResolve, hA, hR, hH]

/-- The category of an item rendered back to raw text, as a re-imported
record would carry it. -/
def typeString : LineItemType → String
  | LineItemType.service => "service"
  | LineItemType.expense => "expense"

/-- A normalized item presented again as a raw record with the same
category, description, hours/quantity, rate and amount. -/
def itemToRaw (it : NormItem) : ResolvedRaw :=
  { rawAmount := it.amount, rawHours := it.hours, rawRate := it.rate,
    desc := it.description, explicitType := some (typeString it.type) }

lemma normalizeRow_type (raw : ResolvedRaw) :
    (normalizeRow raw).type = classify raw := rfl

lemma normalizeRow_description_ne (raw : ResolvedRaw) :
    (normalizeRow raw).description ≠ "" := by
  show (if raw.desc = "" then
      (if classify raw = LineItemType.service then "Residential Build" else "Materials")
    else raw.desc) ≠ ""
  by_cases hd : raw.desc = ""
  · by_cases hty : classify raw = LineItemType.service <;> simp [hd, hty]
  · simp [hd]

lemma classify_service_desc {raw : ResolvedRaw}
    (hcl : classify raw = LineItemType.service) :
    expenseKeywords.any (fun k => containsSub (lowerStr raw.desc) k) = false := by
  by_contra hc
  rw [Bool.not_eq_false] at hc
  unfold classify at hcl
  simp [hc] at hcl

lemma classify_feedback (raw : ResolvedRaw) :
    classify (itemToRaw (normalizeRow raw)) = classify raw := by
  cases hcl : classify raw with
  | service =>
    have hty : (normalizeRow raw).type = LineItemType.service := hcl
    have himp := classify_service_desc hcl
    show (if _ then _ else _) = _
    rw [if_neg]
    rw [Bool.or_eq_true]
    push_neg
    constructor
    · show (match (itemToRaw (normalizeRow raw)).explicitType with
        | some t => containsSub (lowerStr t) "expense"
        | none => false) ≠ true
      have he : (itemToRaw (normalizeRow raw)).explicitType = some "service" := by
        simp [itemToRaw, hty, typeString]
      rw [he]
      simp [show containsSub (lowerStr "service") "expense" = false from rfl]
    · show expenseKeywords.any
        (fun k => containsSub (lowerStr (itemToRaw (normalizeRow raw)).desc) k) ≠ true
      have hdd : (itemToRaw (normalizeRow raw)).desc = (normalizeRow raw).description := rfl
      rw [hdd]
      show expenseKeywords.any (fun k => containsSub (lowerStr (if raw.desc = "" then
          (if classify raw = LineItemType.service then "Residential Build" else "Materials")
        else raw.desc)) k) ≠ true
      by_cases hd : raw.desc = ""
      · rw [hd, if_pos rfl, if_pos hcl]
        simp [show expenseKeywords.any
          (fun k => containsSub (lowerStr "Residential Build") k) = false from rfl]
      · rw [if_neg hd]
        simp [himp]
  | expense =>
    have hty : (normalizeRow raw).type = LineItemType.expense := hcl
    have he : (itemToRaw (normalizeRow raw)).explicitType = some "expense" := by
      simp [itemToRaw, hty, typeString]
    show (if _ then _ else _) = _
    rw [if_pos]
    rw [Bool.or_eq_true]
    left
    show (match (itemToRaw (normalizeRow raw)).explicitType with
      | some t => containsSub (lowerStr t) "expense"
      | none => false) = true
    rw [he]
    rfl

lemma normalizeRow_expense (r2 : ResolvedRaw) (h : classify r2 = LineItemType.expense) :
    normalizeRow r2 =
      { type := LineItemType.expense,
        description := if r2.desc = "" then "Materials" else r2.desc,
        hours := (expenseResolve r2.rawAmount r2.rawHours r2.rawRate).1,
        rate := (expenseResolve r2.rawAmount r2.rawHours r2.rawRate).2.1,
        amount := (expenseResolve r2.rawAmount r2.rawHours r2.rawRate).2.2 } := by
  simp [normalizeRow, h]

lemma normalizeRow_service (r2 : ResolvedRaw) (h : classify r2 = LineItemType.service) :
    normalizeRow r2 =
      { type := LineItemType.service,
        description := if r2.desc = "" then "Residential Build" else r2.desc,
        hours := (serviceResolve r2.rawAmount r2.rawHours r2.rawRate).1,
        rate := (serviceResolve r2.rawAmount r2.rawHours r2.rawRate).2.1,
        amount := (serviceResolve r2.rawAmount r2.rawHours r2.rawRate).2.2 } := by
  simp [normalizeRow, h]

lemma serviceResolve_of_amount {A : JSNum} (H R : JSNum)
    (hA : A.isNaN = false) (hZ : A.isZero = false) :
    serviceResolve A H R = calculateMetricsFromAmountJS A := by
  simp [serviceResolve, hA, hZ]

lemma jsRoundQ_zero_mul : jsRoundQ (0 * 65 : ℚ) = 0 := by
  unfold jsRoundQ
  rw [show (0 * 65 : ℚ) = ((0 : ℤ) : ℚ) by norm_num, jsRound_intCast]
  norm_num

/-- C8 amended: the import normalizer is idempotent on every record it
classifies expense, and on every service record whose resolved amount
cell is a number other than zero (the reverse-resolver path); the
forward service path (absent or zero amount) is the one that can drift. -/
theorem normalizeRow_idem_cases :
    ∀ raw : ResolvedRaw,
      (classify raw = LineItemType.expense
        ∨ (classify raw = LineItemType.service
            ∧ raw.rawAmount.isNaN = false ∧ raw.rawAmount.isZero = false)) →
      normalizeRow (itemToRaw (normalizeRow raw)) = normalizeRow raw := by
  intro raw h
  rcases h with hcl | ⟨hcl, hA, hZ⟩
  · have hcl2 : classify (itemToRaw (normalizeRow raw)) = LineItemType.expense := by
      rw [classify_feedback raw, hcl]
    rw [normalizeRow_expense _ hcl2]
    simp only [itemToRaw]
    rw [normalizeRow_expense raw hcl]
    simp only
    rw [expenseResolve_idem]
    by_cases hd : raw.desc = "" <;> simp [hd]
  · have hcl2 : classify (itemToRaw (normalizeRow raw)) = LineItemType.service := by
      rw [classify_feedback raw, hcl]
    rw [normalizeRow_service _ hcl2]
    simp only [itemToRaw]
    rw [normalizeRow_service raw hcl]
    simp only
    rw [serviceResolve_of_amount raw.rawHours raw.rawRate hA hZ]
    cases hAc : raw.rawAmount with
    | nan =>
      rw [hAc] at hA
      simp [isNaN_nan] at hA
    | inf =>
      rw [show calculateMetricsFromAmountJS JSNum.inf
          = (JSNum.num 0, JSNum.num 65, JSNum.num 0) from rfl]
      simp only
      rw [show serviceResolve (JSNum.num 0) (JSNum.num 0) (JSNum.num 65)
          = (JSNum.num 0, JSNum.num 65, JSNum.num (jsRoundQ (0 * 65))) from rfl]
      rw [jsRoundQ_zero_mul]
      by_cases hd : raw.desc = "" <;> simp [hd]
    | ninf =>
      rw [show calculateMetricsFromAmountJS JSNum.ninf
          = (JSNum.num 0, JSNum.num 65, JSNum.num 0) from rfl]
      simp only
      rw [show serviceResolve (JSNum.num 0) (JSNum.num 0) (JSNum.num 65)
          = (JSNum.num 0, JSNum.num 65, JSNum.num (jsRoundQ (0 * 65))) from rfl]
      rw [jsRoundQ_zero_mul]
      by_cases hd : raw.desc = "" <;> simp [hd]
    | num q =>
      have hq : q ≠ 0 := by
        rw [hAc] at hZ
        simpa [isZero_num] using hZ
      rw [show calculateMetricsFromAmountJS (JSNum.num q)
          = (JSNum.num ((calculateMetricsFromAmount q).hours : ℚ),
             JSNum.num (calculateMetricsFromAmount q).rate,
             JSNum.num (calculateMetricsFromAmount q).amount) from rfl]
      simp only
      have hnam : (calculateMetricsFromAmount q).amount ≠ 0 := by
        have := resolve_amount_ge q hq
        linarith
      have hsr2 : serviceResolve (JSNum.num (calculateMetricsFromAmount q).amount)
          (JSNum.num ((calculateMetricsFromAmount q).hours : ℚ))
          (JSNum.num (calculateMetricsFromAmount q).rate)
          = calculateMetricsFromAmountJS (JSNum.num (calculateMetricsFromAmount q).amount) := by
        apply serviceResolve_of_amount
        · exact isNaN_num _
        · simp [isZero_num, hnam]
      rw [hsr2]
      rw [show calculateMetricsFromAmountJS (JSNum.num (calculateMetricsFromAmount q).amount)
          = (JSNum.num ((calculateMetricsFromAmount ((calculateMetricsFromAmount q).amount)).hours : ℚ),
             JSNum.num (calculateMetricsFromAmount ((calculateMetricsFromAmount q).amount)).rate,
             JSNum.num (calculateMetricsFromAmount ((calculateMetricsFromAmount q).amount)).amount) from rfl]
      rw [resolve_fixed q hq]
      by_cases hd : raw.desc = "" <;> simp [hd]

/-- Witness instantiating the hypothesis of the amended C8 theorem at the
concrete Bunnings screws expense record. -/
theorem normalizeRow_idem_cases_witness :
    normalizeRow (itemToRaw (normalizeRow
      { rawAmount := JSNum.num 45, rawHours := JSNum.nan, rawRate := JSNum.nan,
        desc := "Bunnings screws", explicitType := none }))
      = normalizeRow
        { rawAmount := JSNum.num 45, rawHours := JSNum.nan, rawRate := JSNum.nan,
          desc := "Bunnings screws", explicitType := none } :=
  normalizeRow_idem_cases _ (Or.inl rfl)

lemma resolve_210 : calculateMetricsFromAmount 210 = { hours := 3, rate := 65, amount := 195 } := by
  rw [resolve_eq_spec]
  norm_num [resolveSpec, candidateFor, candidateDiff, jsRound]

/-- The raw record hours 3, rate 70 with no amount, whose normalized
output drifts when normalized again. -/
def exDriftRaw : ResolvedRaw :=
  { rawAmount := JSNum.nan, rawHours := JSNum.num 3, rawRate := JSNum.num 70,
    desc := "Consult", explicitType := none }

/-- C8 counterexample: the normalizer is not idempotent.  The service row
hours 3, rate 70 normalizes forward to amount 210; re-running the
normalizer on that output sends 210 through the reverse resolver, which
snaps it to 3 hours at rate 65, amount 195, a different item. -/
theorem normalizeRow_not_idem :
    normalizeRow (itemToRaw (normalizeRow exDriftRaw)) ≠ normalizeRow exDriftRaw := by
  have e : (3 * 70 : ℚ) = ((210 : ℤ) : ℚ) := by norm_num
  have h210 : jsRoundQ (3 * 70) = 210 := by
    unfold jsRoundQ
    rw [e, jsRound_intCast]
    norm_num
  have h1 : normalizeRow exDriftRaw
      = { type := LineItemType.service, description := "Consult",
          hours := JSNum.num 3, rate := JSNum.num 70,
          amount := JSNum.num (jsRoundQ (3 * 70)) } := rfl
  have h2 : normalizeRow (itemToRaw
      { type := LineItemType.service, description := "Consult",
        hours := JSNum.num 3, rate := JSNum.num 70, amount := JSNum.num 210 })
      = { type := LineItemType.service, description := "Consult",
          hours := JSNum.num ((calculateMetricsFromAmount 210).hours : ℚ),
          rate := JSNum.num (calculateMetricsFromAmount 210).rate,
          amount := JSNum.num (calculateMetricsFromAmount 210).amount } := rfl
  intro hfalse
  rw [h1, h210, h2, resolve_210] at hfalse
  simp only [NormItem.mk.injEq, JSNum.num.injEq] at hfalse
  norm_num at hfalse

end Invoice
